import Mathlib

/-!
Verification of the `logcat` crate's threadtime line decoder and record model.

The embedding works over `List Char` (Rust `&str` slices are modelled as
character lists).  Rust's `char::is_whitespace` (Unicode `White_Space`),
`str::trim_start`, `str::trim_end`, `str::split_once`, `str::split`,
`str::parse::<u32>` and `str::parse::<i32>` are modelled explicitly below.
The ambient clock read (`Local::today().year()`) is modelled as an explicit
`year` parameter.  Panics (chrono's `NaiveDate::from_ymd` /
`NaiveDate::and_hms_milli` on out-of-range values) are modelled by a
distinguished `panic` outcome of the decode result type.
-/

namespace Logcat

/-- Rust `char::is_whitespace`: the Unicode `White_Space` code points. -/
def rustIsWhitespace (c : Char) : Bool :=
  decide (c.toNat ∈ [9, 10, 11, 12, 13, 32, 133, 160, 5760,
    8192, 8193, 8194, 8195, 8196, 8197, 8198, 8199, 8200, 8201, 8202,
    8232, 8233, 8239, 8287, 12288])

/-- Rust `str::trim_start` (with `char::is_whitespace`). -/
def trimStart : List Char → List Char
  | [] => []
  | c :: cs => if rustIsWhitespace c then trimStart cs else c :: cs

/-- Rust `str::trim_end` (with `char::is_whitespace`). -/
def trimEnd (l : List Char) : List Char := (trimStart l.reverse).reverse

/-- Rust `str::split_once(p)`: split at the first character satisfying `p`,
returning the text before and after that character, or `None`. -/
def splitOnceP (p : Char → Bool) : List Char → Option (List Char × List Char)
  | [] => none
  | c :: cs =>
    if p c then some ([], cs)
    else
      match splitOnceP p cs with
      | some (pre, post) => some (c :: pre, post)
      | none => none

/-- Rust `str::split(p)` collected to a list of groups (the separator
characters are dropped; an empty input yields one empty group). -/
def splitAll (p : Char → Bool) : List Char → List (List Char)
  | [] => [[]]
  | c :: cs =>
    if p c then [] :: splitAll p cs
    else
      match splitAll p cs with
      | g :: gs => (c :: g) :: gs
      | [] => [[c]]

/-- ASCII decimal digit test, Rust `char::to_digit(10).is_some()`. -/
def isAsciiDigit (c : Char) : Bool := decide (48 ≤ c.toNat ∧ c.toNat ≤ 57)

/-- Accumulate the decimal value of a digit run; `none` on a non-digit. -/
def digitsVal : List Char → Nat → Option Nat
  | [], acc => some acc
  | c :: cs, acc =>
    if isAsciiDigit c then digitsVal cs (acc * 10 + (c.toNat - 48)) else none

/-- Value of a non-empty all-digit run, `none` otherwise. -/
def parseNatDigits (l : List Char) : Option Nat :=
  match l with
  | [] => none
  | _ => digitsVal l 0

/-- Rust `str::parse::<u32>`: optional leading `+`, then a non-empty digit
run whose value fits in 32 bits. -/
def parseU32 (l : List Char) : Option Nat :=
  let body := if l.head? = some '+' then l.tail else l
  match parseNatDigits body with
  | some n => if n < 4294967296 then some n else none
  | none => none

/-- Rust `str::parse::<i32>`: optional leading `+` or `-`, then a non-empty
digit run; the value must fit in the `i32` range. -/
def parseI32 (l : List Char) : Option Int :=
  if l.head? = some '-' then
    match parseNatDigits l.tail with
    | some n => if n ≤ 2147483648 then some (-(n : Int)) else none
    | none => none
  else
    let body := if l.head? = some '+' then l.tail else l
    match parseNatDigits body with
    | some n => if n < 2147483648 then some (n : Int) else none
    | none => none

/-- `Level` from `src/message/level.rs`. -/
inductive Level
  | Verbose
  | Debug
  | Info
  | Warning
  | Error
  | Fatal
deriving DecidableEq

/-- `Level::is_debug_or_higher`. -/
def Level.is_debug_or_higher : Level → Bool
  | .Debug | .Info | .Warning | .Error | .Fatal => true
  | _ => false

/-- `Level::is_info_or_higher`. -/
def Level.is_info_or_higher : Level → Bool
  | .Info | .Warning | .Error | .Fatal => true
  | _ => false

/-- `Level::is_warning_or_higher`. -/
def Level.is_warning_or_higher : Level → Bool
  | .Warning | .Error | .Fatal => true
  | _ => false

/-- `Level::is_error_or_higher`. -/
def Level.is_error_or_higher : Level → Bool
  | .Error | .Fatal => true
  | _ => false

/-- `Level::short`, as a one-character string. -/
def Level.short : Level → List Char
  | .Verbose => ['V']
  | .Debug => ['D']
  | .Info => ['I']
  | .Warning => ['W']
  | .Error => ['E']
  | .Fatal => ['F']

/-- Rank of a level in the order Verbose < Debug < Info < Warning < Error <
Fatal stated by the specification (used only to state claims about the
threshold predicates). -/
def Level.rank : Level → Nat
  | .Verbose => 0
  | .Debug => 1
  | .Info => 2
  | .Warning => 3
  | .Error => 4
  | .Fatal => 5

/-- The fixed level-code table of `ThreadTimeParser::parse_level`. -/
def levelOfChar (c : Char) : Option Level :=
  if c = 'V' then some .Verbose
  else if c = 'D' then some .Debug
  else if c = 'I' then some .Info
  else if c = 'W' then some .Warning
  else if c = 'E' then some .Error
  else if c = 'F' then some .Fatal
  else none

/-- `chrono::NaiveDateTime`, recorded by its calendar components. -/
structure NaiveDateTime where
  year : Int
  month : Nat
  day : Nat
  hour : Nat
  minute : Nat
  second : Nat
  millisecond : Nat
deriving DecidableEq

/-- Gregorian leap-year rule (chrono). -/
def isLeapYear (y : Int) : Bool :=
  y % 4 == 0 && (y % 100 != 0 || y % 400 == 0)

/-- Days in a month (chrono). -/
def daysInMonth (y : Int) (m : Nat) : Nat :=
  if m == 2 then (if isLeapYear y then 29 else 28)
  else if m == 4 || m == 6 || m == 9 || m == 11 then 30
  else 31

/-- Validity condition of `chrono::NaiveDate::from_ymd` (chrono 0.4
documents that `from_ymd` panics on an invalid or out-of-range date; the
year always comes from the ambient clock here, so only month/day validity
is relevant). -/
def fromYmdValid (y : Int) (m d : Nat) : Bool :=
  decide (1 ≤ m) && decide (m ≤ 12) && decide (1 ≤ d) && decide (d ≤ daysInMonth y m)

/-- Validity condition of `chrono::NaiveDate::and_hms_milli` (chrono 0.4
documents a panic on an invalid hour, minute, second or millisecond;
milliseconds 1000..=1999 denote a leap second and are accepted). -/
def hmsMilliValid (h mi s ms : Nat) : Bool :=
  decide (h ≤ 23) && decide (mi ≤ 59) && decide (s ≤ 59) && decide (ms ≤ 1999)

/-- `Message` from `src/message.rs`. -/
structure Message where
  level : Level
  tag : List Char
  content : List Char
  date_time : Option NaiveDateTime
  pid : Option Int
  tid : Option Int
deriving DecidableEq

/-- `Error` from `src/message/builder.rs` (`FieldNotSet`). -/
inductive BuildError
  | fieldNotSet (field : List Char)
deriving DecidableEq

/-- `MessageBuilder` from `src/message/builder.rs`: six `RefCell<Option<_>>`
slots accumulated before finalization. -/
structure MessageBuilder where
  level : Option Level
  tag : Option (List Char)
  content : Option (List Char)
  date_time : Option NaiveDateTime
  pid : Option Int
  tid : Option Int
deriving DecidableEq

/-- `MessageBuilder::new` (all slots empty, per `Default`). -/
def MessageBuilder.new : MessageBuilder := ⟨none, none, none, none, none, none⟩

/-- `MessageBuilder::level` setter. -/
def MessageBuilder.setLevel (b : MessageBuilder) (v : Level) : MessageBuilder :=
  { b with level := some v }

/-- `MessageBuilder::tag` setter. -/
def MessageBuilder.setTag (b : MessageBuilder) (v : List Char) : MessageBuilder :=
  { b with tag := some v }

/-- `MessageBuilder::content` setter. -/
def MessageBuilder.setContent (b : MessageBuilder) (v : List Char) : MessageBuilder :=
  { b with content := some v }

/-- `MessageBuilder::date_time` setter. -/
def MessageBuilder.setDateTime (b : MessageBuilder) (v : NaiveDateTime) : MessageBuilder :=
  { b with date_time := some v }

/-- `MessageBuilder::process_id` setter. -/
def MessageBuilder.setProcessId (b : MessageBuilder) (v : Int) : MessageBuilder :=
  { b with pid := some v }

/-- `MessageBuilder::thread_id` setter. -/
def MessageBuilder.setThreadId (b : MessageBuilder) (v : Int) : MessageBuilder :=
  { b with tid := some v }

/-- `MessageBuilder::build` from `src/message/builder.rs`.  In the source,
`build` takes `&self` (a shared borrow) and clones the slots; this
explicit-state embedding therefore returns the unchanged builder state
alongside the result, so the state left after finalization is observable. -/
def MessageBuilder.build (b : MessageBuilder) : MessageBuilder × Except BuildError Message :=
  match b.level with
  | none => (b, .error (.fieldNotSet "level".data))
  | some lv =>
    match b.tag with
    | none => (b, .error (.fieldNotSet "tag".data))
    | some t =>
      match b.content with
      | none => (b, .error (.fieldNotSet "content".data))
      | some c => (b, .ok ⟨lv, t, c, b.date_time, b.pid, b.tid⟩)

/-- The decode stage diagnostics of `ThreadTimeParser`, one constructor per
distinct `bail!`/`context` site, carrying the offending text exactly as the
source formats it into the message. -/
inductive DecodeError
  | malformedLine
  | noGroupsAfterDate
  | invalidDate (tok : List Char)
  | noGroupsAfterTime
  | invalidTime (tok : List Char)
  | noGroupsAfterPid
  | invalidPid (tok : List Char)
  | noGroupsAfterTid
  | invalidTid (tok : List Char)
  | noGroupsAfterLevel
  | invalidLevel (c : Char)
  | emptyLevel (tok : List Char)
  | missingTag
deriving DecidableEq

/-- `true` exactly on the `emptyLevel` diagnostic (the `None` arm of
`parse_level`). -/
def DecodeError.isEmptyLevel : DecodeError → Bool
  | .emptyLevel _ => true
  | _ => false

/-- Outcome of a decode: a message, a recoverable error returned to the
caller, or a panic (an abort that is not a return value). -/
inductive DResult
  | ok (msg : Message)
  | err (e : DecodeError)
  | panic (msg : List Char)
deriving DecidableEq

/-- `PartialMessage` from `src/parse/threadtime.rs`. -/
structure PartialMessage where
  month : Nat
  day : Nat
  hour : Nat
  minute : Nat
  second : Nat
  millisecond : Nat
  pid : Int
  tid : Int
  level : Level
  tag : List Char
deriving DecidableEq

/-- `PartialMessage::default`. -/
def PartialMessage.default : PartialMessage :=
  ⟨0, 0, 0, 0, 0, 0, 0, 0, .Verbose, []⟩

/-- `ThreadTimeParser::parse_date`. -/
def parse_date (st : PartialMessage) (rest : List Char) :
    Except DecodeError (PartialMessage × List Char) :=
  match splitOnceP rustIsWhitespace (trimStart rest) with
  | none => .error .noGroupsAfterDate
  | some (month_day, rest) =>
    match splitOnceP (fun c => c == '-') month_day with
    | none => .error (.invalidDate month_day)
    | some (mTok, dTok) =>
      match parseU32 mTok with
      | none => .error (.invalidDate month_day)
      | some m =>
        match parseU32 dTok with
        | none => .error (.invalidDate month_day)
        | some d => .ok ({ st with month := m, day := d }, rest)

/-- `ThreadTimeParser::parse_time`: the token is split on both `:` and `.`,
the first four groups parse as hour, minute, second, millisecond. -/
def parse_time (st : PartialMessage) (rest : List Char) :
    Except DecodeError (PartialMessage × List Char) :=
  match splitOnceP rustIsWhitespace (trimStart rest) with
  | none => .error .noGroupsAfterTime
  | some (time, rest) =>
    match splitAll (fun c => c == ':' || c == '.') time with
    | g1 :: g2 :: g3 :: g4 :: _ =>
      match parseU32 g1, parseU32 g2, parseU32 g3, parseU32 g4 with
      | some h, some mi, some s, some ms =>
        .ok ({ st with hour := h, minute := mi, second := s, millisecond := ms }, rest)
      | _, _, _, _ => .error (.invalidTime time)
    | _ => .error (.invalidTime time)

/-- `ThreadTimeParser::parse_pid`. -/
def parse_pid (st : PartialMessage) (rest : List Char) :
    Except DecodeError (PartialMessage × List Char) :=
  match splitOnceP rustIsWhitespace (trimStart rest) with
  | none => .error .noGroupsAfterPid
  | some (pid, rest) =>
    match parseI32 pid with
    | none => .error (.invalidPid pid)
    | some p => .ok ({ st with pid := p }, rest)

/-- `ThreadTimeParser::parse_tid`. -/
def parse_tid (st : PartialMessage) (rest : List Char) :
    Except DecodeError (PartialMessage × List Char) :=
  match splitOnceP rustIsWhitespace (trimStart rest) with
  | none => .error .noGroupsAfterTid
  | some (tid, rest) =>
    match parseI32 tid with
    | none => .error (.invalidTid tid)
    | some t => .ok ({ st with tid := t }, rest)

/-- `ThreadTimeParser::parse_level`: the first character of the token is
mapped through the fixed code table.  The source has two `bail!` arms with
the same message text; they are kept as the distinct constructors
`invalidLevel` (a first character outside the table) and `emptyLevel` (the
`None` arm of `chars().next()`). -/
def parse_level (st : PartialMessage) (rest : List Char) :
    Except DecodeError (PartialMessage × List Char) :=
  match splitOnceP rustIsWhitespace (trimStart rest) with
  | none => .error .noGroupsAfterLevel
  | some (level, rest) =>
    match level.head? with
    | some c =>
      match levelOfChar c with
      | some lv => .ok ({ st with level := lv }, rest)
      | none => .error (.invalidLevel c)
    | none => .error (.emptyLevel level)

/-- `ThreadTimeParser::parse_tag`: split at the first `:`, trim the tag's
trailing whitespace, and advance the remainder past exactly one leading
character (`chars.next()` on the empty remainder is a no-op). -/
def parse_tag (st : PartialMessage) (rest : List Char) :
    Except DecodeError (PartialMessage × List Char) :=
  match splitOnceP (fun c => c == ':') (trimStart rest) with
  | none => .error .missingTag
  | some (tag, rest) => .ok ({ st with tag := trimEnd tag }, rest.drop 1)

/-- Panic message of `chrono::NaiveDate::from_ymd` on an invalid date. -/
def datePanicMsg : List Char := "invalid or out-of-range date".data

/-- Panic message of `chrono::NaiveDate::and_hms_milli` on an invalid time. -/
def timePanicMsg : List Char := "invalid time".data

/-- `ThreadTimeParser::parse_content`: the whole remainder becomes the
content; the timestamp is assembled from the accumulated fields and the
ambient year, panicking (per chrono 0.4) when the combination is
calendar-invalid; the `Message` is built through the builder with all six
fields populated. -/
def parse_content (year : Int) (st : PartialMessage) (rest : List Char) : DResult :=
  if fromYmdValid year st.month st.day then
    if hmsMilliValid st.hour st.minute st.second st.millisecond then
      match ((((((MessageBuilder.new.setLevel st.level).setTag st.tag).setContent
          rest).setDateTime ⟨year, st.month, st.day, st.hour, st.minute, st.second,
          st.millisecond⟩).setProcessId st.pid).setThreadId st.tid).build.2 with
      | .ok m => .ok m
      | .error _ => .panic "field not set".data
    else .panic timePanicMsg
  else .panic datePanicMsg

/-- The `and_then` chain of `ThreadTimeParser::parse` up to and including
`parse_tag`. -/
def decodeStages (st : PartialMessage) (line : List Char) :
    Except DecodeError (PartialMessage × List Char) :=
  match parse_date st line with
  | .error e => .error e
  | .ok (st, r) =>
    match parse_time st r with
    | .error e => .error e
    | .ok (st, r) =>
      match parse_pid st r with
      | .error e => .error e
      | .ok (st, r) =>
        match parse_tid st r with
        | .error e => .error e
        | .ok (st, r) =>
          match parse_level st r with
          | .error e => .error e
          | .ok (st, r) =>
            match parse_tag st r with
            | .error e => .error e
            | .ok (st, r) => .ok (st, r)

/-- `parse::threadtime` / `ThreadTimeParser::parse`: reject lines starting
with `-`, then run the stage chain from a freshly reset accumulator and
finish with `parse_content`.  `year` models the `Local::today().year()`
read. -/
def threadtime (year : Int) (line : List Char) : DResult :=
  if line.head? = some '-' then .err .malformedLine
  else
    match decodeStages PartialMessage.default line with
    | .error e => .err e
    | .ok (st, r) => parse_content year st r

/-! ### Lemma toolkit about the string primitives -/

/-- Every character of the run is whitespace. -/
def wsRun (l : List Char) : Prop := ∀ c ∈ l, rustIsWhitespace c = true

/-- No character of the run is whitespace. -/
def noWs (l : List Char) : Prop := ∀ c ∈ l, rustIsWhitespace c = false

instance (l : List Char) : Decidable (wsRun l) := by
  unfold wsRun
  infer_instance

instance (l : List Char) : Decidable (noWs l) := by
  unfold noWs
  infer_instance

instance {ε α : Type} [DecidableEq ε] [DecidableEq α] : DecidableEq (Except ε α) := fun a b =>
  match a, b with
  | .error e, .error f =>
    if h : e = f then isTrue (by rw [h]) else isFalse (by intro hc; cases hc; exact h rfl)
  | .error _, .ok _ => isFalse (by intro h; cases h)
  | .ok _, .error _ => isFalse (by intro h; cases h)
  | .ok x, .ok y =>
    if h : x = y then isTrue (by rw [h]) else isFalse (by intro hc; cases hc; exact h rfl)

lemma wsRun_nil : wsRun [] := by intro c hc; cases hc

lemma wsRun_space : wsRun [' '] := by
  intro c hc
  rw [List.mem_singleton.mp hc]
  decide

lemma wsRun_drop {w : List Char} (h : wsRun w) (n : Nat) : wsRun (w.drop n) :=
  fun c hc => h c (List.mem_of_mem_drop hc)

lemma trimStart_ws_append : ∀ {w : List Char}, wsRun w →
    ∀ l, trimStart (w ++ l) = trimStart l
  | [], _, l => rfl
  | c :: cs, hw, l => by
    have hc : rustIsWhitespace c = true := hw c (List.mem_cons_self _ _)
    have hcs : wsRun cs := fun a ha => hw a (List.mem_cons_of_mem _ ha)
    simp only [List.cons_append, trimStart, hc, if_true]
    exact trimStart_ws_append hcs l

lemma trimStart_cons {c : Char} {l : List Char} (h : rustIsWhitespace c = false) :
    trimStart (c :: l) = c :: l := by
  simp [trimStart, h]

lemma trimStart_noWs {l : List Char} (h : noWs l) : trimStart l = l := by
  cases l with
  | nil => rfl
  | cons c cs => exact trimStart_cons (h c (List.mem_cons_self _ _))

lemma trimStart_head : ∀ {l : List Char} {c : Char} {cs : List Char},
    trimStart l = c :: cs → rustIsWhitespace c = false
  | [], c, cs, h => by simp [trimStart] at h
  | a :: as, c, cs, h => by
    by_cases ha : rustIsWhitespace a
    · exact trimStart_head (l := as) (by simpa [trimStart, ha] using h)
    · have ha' : rustIsWhitespace a = false := by simpa using ha
      rw [trimStart_cons ha'] at h
      injection h with h1 h2
      rw [← h1]
      exact ha'

lemma trimEnd_append_ws {w : List Char} (hw : wsRun w) (t : List Char) :
    trimEnd (t ++ w) = trimEnd t := by
  unfold trimEnd
  rw [List.reverse_append,
    trimStart_ws_append (fun c hc => hw c (List.mem_reverse.mp hc)) t.reverse]

lemma trimEnd_noWs {t : List Char} (h : noWs t) : trimEnd t = t := by
  unfold trimEnd
  rw [trimStart_noWs (fun c hc => h c (List.mem_reverse.mp hc)), List.reverse_reverse]

lemma splitOnceP_append : ∀ {tok : List Char} {p : Char → Bool} {c : Char}
    {rest : List Char}, (∀ a ∈ tok, p a = false) → p c = true →
    splitOnceP p (tok ++ c :: rest) = some (tok, rest)
  | [], p, c, rest, _, hc => by simp [splitOnceP, hc]
  | a :: as, p, c, rest, h, hc => by
    have ha : p a = false := h a (List.mem_cons_self _ _)
    have has : ∀ x ∈ as, p x = false := fun x hx => h x (List.mem_cons_of_mem _ hx)
    simp only [List.cons_append, splitOnceP, ha, Bool.false_eq_true, if_false,
      List.append_eq, splitOnceP_append has hc]

lemma splitOnceP_nil_pre : ∀ {p : Char → Bool} {l post : List Char},
    splitOnceP p l = some ([], post) → ∃ c cs, l = c :: cs ∧ p c = true
  | p, [], post, h => by simp [splitOnceP] at h
  | p, a :: as, post, h => by
    by_cases ha : p a
    · exact ⟨a, as, rfl, ha⟩
    · have ha' : p a = false := by simpa using ha
      simp only [splitOnceP, ha', Bool.false_eq_true, if_false] at h
      cases hsp : splitOnceP p as with
      | none => rw [hsp] at h; cases h
      | some pr =>
        rw [hsp] at h
        cases h' : pr with
        | mk pre post' => rw [h'] at h; simp at h

lemma splitAll_append : ∀ {g : List Char} {p : Char → Bool} {c : Char}
    {rest : List Char}, (∀ a ∈ g, p a = false) → p c = true →
    splitAll p (g ++ c :: rest) = g :: splitAll p rest
  | [], p, c, rest, _, hc => by simp [splitAll, hc]
  | a :: as, p, c, rest, h, hc => by
    have ha : p a = false := h a (List.mem_cons_self _ _)
    have has : ∀ x ∈ as, p x = false := fun x hx => h x (List.mem_cons_of_mem _ hx)
    simp only [List.cons_append, splitAll, ha, Bool.false_eq_true, if_false,
      List.append_eq, splitAll_append has hc]

lemma splitAll_noSep : ∀ {g : List Char} {p : Char → Bool},
    (∀ a ∈ g, p a = false) → splitAll p g = [g]
  | [], p, _ => rfl
  | a :: as, p, h => by
    have ha : p a = false := h a (List.mem_cons_self _ _)
    have has : ∀ x ∈ as, p x = false := fun x hx => h x (List.mem_cons_of_mem _ hx)
    simp only [splitAll, ha, Bool.false_eq_true, if_false, splitAll_noSep has]

lemma not_ws_of_toNat_range {c : Char} (h1 : 43 ≤ c.toNat) (h2 : c.toNat ≤ 58) :
    rustIsWhitespace c = false := by
  simp only [rustIsWhitespace, decide_eq_false_iff_not, List.mem_cons,
    List.not_mem_nil, or_false]
  omega

lemma ws_toNat {c : Char} (h : rustIsWhitespace c = true) :
    c.toNat ≤ 32 ∨ 133 ≤ c.toNat := by
  simp only [rustIsWhitespace, decide_eq_true_eq, List.mem_cons,
    List.not_mem_nil, or_false] at h
  omega

lemma beq_false_of_toNat_ne {c d : Char} (h : c.toNat ≠ d.toNat) : (c == d) = false := by
  rw [beq_eq_false_iff_ne]
  intro he
  exact h (by rw [he])

lemma isAsciiDigit_range {c : Char} (h : isAsciiDigit c = true) :
    48 ≤ c.toNat ∧ c.toNat ≤ 57 := by
  simpa [isAsciiDigit] using h

lemma digitsVal_chars : ∀ {l : List Char} {acc n : Nat}, digitsVal l acc = some n →
    ∀ c ∈ l, 48 ≤ c.toNat ∧ c.toNat ≤ 57
  | [], _, _, _, c, hc => by cases hc
  | a :: as, acc, n, h, c, hc => by
    by_cases ha : isAsciiDigit a
    · rcases List.mem_cons.mp hc with rfl | hc'
      · exact isAsciiDigit_range ha
      · exact digitsVal_chars (by simpa [digitsVal, ha] using h) c hc'
    · simp [digitsVal, ha] at h

lemma parseNatDigits_chars {l : List Char} {n : Nat} (h : parseNatDigits l = some n) :
    ∀ c ∈ l, 48 ≤ c.toNat ∧ c.toNat ≤ 57 := by
  cases l with
  | nil => simp [parseNatDigits] at h
  | cons a as => exact digitsVal_chars (by simpa [parseNatDigits] using h)

lemma parseU32_chars {t : List Char} {n : Nat} (h : parseU32 t = some n) :
    ∀ c ∈ t, c.toNat = 43 ∨ (48 ≤ c.toNat ∧ c.toNat ≤ 57) := by
  intro c hc
  unfold parseU32 at h
  by_cases hplus : t.head? = some '+'
  · cases t with
    | nil => cases hc
    | cons a as =>
      have ha : a = '+' := by simpa using hplus
      simp only [hplus, if_true, List.tail_cons] at h
      rcases List.mem_cons.mp hc with rfl | hc'
      · left; rw [ha]; rfl
      · cases hdg : parseNatDigits as with
        | none => rw [hdg] at h; cases h
        | some k => right; exact parseNatDigits_chars hdg c hc'
  · simp only [hplus, if_false] at h
    cases hdg : parseNatDigits t with
    | none => rw [hdg] at h; cases h
    | some k => right; exact parseNatDigits_chars hdg c hc

lemma parseU32_ne_nil {t : List Char} {n : Nat} (h : parseU32 t = some n) : t ≠ [] := by
  intro he
  subst he
  simp [parseU32, parseNatDigits] at h

lemma parseI32_chars {t : List Char} {n : Int} (h : parseI32 t = some n) :
    ∀ c ∈ t, c.toNat = 43 ∨ c.toNat = 45 ∨ (48 ≤ c.toNat ∧ c.toNat ≤ 57) := by
  intro c hc
  unfold parseI32 at h
  by_cases hminus : t.head? = some '-'
  · cases t with
    | nil => cases hc
    | cons a as =>
      have ha : a = '-' := by simpa using hminus
      simp only [hminus, if_true, List.tail_cons] at h
      rcases List.mem_cons.mp hc with rfl | hc'
      · right; left; rw [ha]; rfl
      · cases hdg : parseNatDigits as with
        | none => rw [hdg] at h; cases h
        | some k => right; right; exact parseNatDigits_chars hdg c hc'
  · simp only [hminus, if_false] at h
    by_cases hplus : t.head? = some '+'
    · cases t with
      | nil => cases hc
      | cons a as =>
        have ha : a = '+' := by simpa using hplus
        simp only [hplus, if_true, List.tail_cons] at h
        rcases List.mem_cons.mp hc with rfl | hc'
        · left; rw [ha]; rfl
        · cases hdg : parseNatDigits as with
          | none => rw [hdg] at h; cases h
          | some k => right; right; exact parseNatDigits_chars hdg c hc'
    · simp only [hplus, if_false] at h
      cases hdg : parseNatDigits t with
      | none => rw [hdg] at h; cases h
      | some k => right; right; exact parseNatDigits_chars hdg c hc

lemma parseI32_ne_nil {t : List Char} {n : Int} (h : parseI32 t = some n) : t ≠ [] := by
  intro he
  subst he
  simp [parseI32, parseNatDigits] at h

/-! ### Behaviour of the decode stages on a shaped input -/

lemma skipSplit {w tok w' more : List Char} (hw : wsRun w) (htokne : tok ≠ [])
    (htok : noWs tok) (hw' : wsRun w') (hne : w' ≠ []) :
    splitOnceP rustIsWhitespace (trimStart (w ++ (tok ++ (w' ++ more)))) =
      some (tok, w'.drop 1 ++ more) := by
  rw [trimStart_ws_append hw]
  obtain ⟨wc, wr, rfl⟩ : ∃ wc wr, w' = wc :: wr := by
    cases w' with
    | nil => exact absurd rfl hne
    | cons a b => exact ⟨a, b, rfl⟩
  obtain ⟨c, cs, rfl⟩ : ∃ c cs, tok = c :: cs := by
    cases tok with
    | nil => exact absurd rfl htokne
    | cons a b => exact ⟨a, b, rfl⟩
  have hgoal : splitOnceP rustIsWhitespace ((c :: cs) ++ wc :: (wr ++ more)) =
      some (c :: cs, wr ++ more) :=
    splitOnceP_append htok (hw' wc (List.mem_cons_self _ _))
  have hhead : rustIsWhitespace c = false := htok c (List.mem_cons_self _ _)
  simpa [List.cons_append, trimStart_cons hhead] using hgoal

lemma parse_date_render {st : PartialMessage} {w mTok dTok w' more : List Char}
    {m d : Nat} (hw : wsRun w) (hm : parseU32 mTok = some m)
    (hd : parseU32 dTok = some d) (hw' : wsRun w') (hne : w' ≠ []) :
    parse_date st (w ++ ((mTok ++ '-' :: dTok) ++ (w' ++ more))) =
      .ok ({ st with month := m, day := d }, w'.drop 1 ++ more) := by
  have h45 : ('-' : Char).toNat = 45 := rfl
  have htokne : (mTok ++ '-' :: dTok : List Char) ≠ [] := by simp
  have htok : noWs (mTok ++ '-' :: dTok) := by
    intro c hc
    rcases List.mem_append.mp hc with h1 | h2
    · rcases parseU32_chars hm c h1 with h43 | ⟨ha, hb⟩ <;>
        exact not_ws_of_toNat_range (by omega) (by omega)
    · rcases List.mem_cons.mp h2 with rfl | h3
      · exact not_ws_of_toNat_range (by omega) (by omega)
      · rcases parseU32_chars hd c h3 with h43 | ⟨ha, hb⟩ <;>
          exact not_ws_of_toNat_range (by omega) (by omega)
  have hsplit : splitOnceP (fun c => c == '-') (mTok ++ '-' :: dTok) =
      some (mTok, dTok) := by
    apply splitOnceP_append
    · intro a ha
      rcases parseU32_chars hm a ha with h43 | ⟨h1, h2⟩ <;>
        exact beq_false_of_toNat_ne (by omega)
    · rfl
  simp only [parse_date, skipSplit hw htokne htok hw' hne, hsplit, hm, hd]

lemma parse_time_render {st : PartialMessage} {w hTok miTok sTok msTok w' more : List Char}
    {h mi s ms : Nat} (hw : wsRun w) (hh : parseU32 hTok = some h)
    (hmi : parseU32 miTok = some mi) (hs : parseU32 sTok = some s)
    (hms : parseU32 msTok = some ms) (hw' : wsRun w') (hne : w' ≠ []) :
    parse_time st (w ++ ((hTok ++ ':' :: (miTok ++ ':' :: (sTok ++ '.' :: msTok)))
        ++ (w' ++ more))) =
      .ok ({ st with hour := h, minute := mi, second := s, millisecond := ms },
        w'.drop 1 ++ more) := by
  have h58 : (':' : Char).toNat = 58 := rfl
  have h46 : ('.' : Char).toNat = 46 := rfl
  have hnosep : ∀ {g : List Char} {n : Nat}, parseU32 g = some n →
      ∀ a ∈ g, ((a == ':') || (a == '.')) = false := by
    intro g n hg a ha
    rcases parseU32_chars hg a ha with h43 | ⟨h1, h2⟩ <;>
      simp [beq_false_of_toNat_ne (show a.toNat ≠ (':' : Char).toNat by omega),
        beq_false_of_toNat_ne (show a.toNat ≠ ('.' : Char).toNat by omega)]
  have htokne : (hTok ++ ':' :: (miTok ++ ':' :: (sTok ++ '.' :: msTok)) : List Char) ≠ [] := by
    simp
  have htok : noWs (hTok ++ ':' :: (miTok ++ ':' :: (sTok ++ '.' :: msTok))) := by
    intro c hc
    have hone : ∀ {g : List Char} {n : Nat}, parseU32 g = some n → c ∈ g →
        rustIsWhitespace c = false := by
      intro g n hg hcg
      rcases parseU32_chars hg c hcg with h43 | ⟨h1, h2⟩ <;>
        exact not_ws_of_toNat_range (by omega) (by omega)
    rcases List.mem_append.mp hc with h1 | h2
    · exact hone hh h1
    · rcases List.mem_cons.mp h2 with rfl | h3
      · exact not_ws_of_toNat_range (by omega) (by omega)
      · rcases List.mem_append.mp h3 with h4 | h5
        · exact hone hmi h4
        · rcases List.mem_cons.mp h5 with rfl | h6
          · exact not_ws_of_toNat_range (by omega) (by omega)
          · rcases List.mem_append.mp h6 with h7 | h8
            · exact hone hs h7
            · rcases List.mem_cons.mp h8 with rfl | h9
              · exact not_ws_of_toNat_range (by omega) (by omega)
              · exact hone hms h9
  have hcolon : ((':' : Char) == ':') || ((':' : Char) == '.') = true := rfl
  have hdot : (('.' : Char) == ':') || (('.' : Char) == '.') = true := rfl
  have hgroups : splitAll (fun c => c == ':' || c == '.')
      (hTok ++ ':' :: (miTok ++ ':' :: (sTok ++ '.' :: msTok))) =
      [hTok, miTok, sTok, msTok] := by
    rw [splitAll_append (hnosep hh) hcolon, splitAll_append (hnosep hmi) hcolon,
      splitAll_append (hnosep hs) hdot, splitAll_noSep (hnosep hms)]
  simp only [parse_time, skipSplit hw htokne htok hw' hne, hgroups, hh, hmi, hs, hms]

lemma parse_pid_render {st : PartialMessage} {w pTok w' more : List Char} {p : Int}
    (hw : wsRun w) (hp : parseI32 pTok = some p) (hw' : wsRun w') (hne : w' ≠ []) :
    parse_pid st (w ++ (pTok ++ (w' ++ more))) =
      .ok ({ st with pid := p }, w'.drop 1 ++ more) := by
  have htok : noWs pTok := by
    intro c hc
    rcases parseI32_chars hp c hc with h43 | h45 | ⟨h1, h2⟩ <;>
      exact not_ws_of_toNat_range (by omega) (by omega)
  simp only [parse_pid, skipSplit hw (parseI32_ne_nil hp) htok hw' hne, hp]

lemma parse_tid_render {st : PartialMessage} {w tTok w' more : List Char} {t : Int}
    (hw : wsRun w) (ht : parseI32 tTok = some t) (hw' : wsRun w') (hne : w' ≠ []) :
    parse_tid st (w ++ (tTok ++ (w' ++ more))) =
      .ok ({ st with tid := t }, w'.drop 1 ++ more) := by
  have htok : noWs tTok := by
    intro c hc
    rcases parseI32_chars ht c hc with h43 | h45 | ⟨h1, h2⟩ <;>
      exact not_ws_of_toNat_range (by omega) (by omega)
  simp only [parse_tid, skipSplit hw (parseI32_ne_nil ht) htok hw' hne, ht]

lemma parse_level_render {st : PartialMessage} {w w' more : List Char} {lvl : Level}
    (hw : wsRun w) (hw' : wsRun w') (hne : w' ≠ []) :
    parse_level st (w ++ (Level.short lvl ++ (w' ++ more))) =
      .ok ({ st with level := lvl }, w'.drop 1 ++ more) := by
  have htokne : Level.short lvl ≠ [] := by cases lvl <;> simp [Level.short]
  have htok : noWs (Level.short lvl) := by
    intro c hc
    cases lvl <;> simp [Level.short] at hc <;> rw [hc] <;> decide
  simp only [parse_level, skipSplit hw htokne htok hw' hne]
  cases lvl <;> rfl

lemma parse_tag_render {st : PartialMessage} {w tagTok w6 post : List Char}
    (hw : wsRun w)
    (htag : ∀ c ∈ tagTok, rustIsWhitespace c = false ∧ (c == ':') = false)
    (hw6 : wsRun w6) :
    parse_tag st (w ++ (tagTok ++ (w6 ++ ':' :: post))) =
      .ok ({ st with tag := tagTok }, post.drop 1) := by
  have h58 : ((':' : Char)).toNat = 58 := rfl
  have hcolonws : ∀ a ∈ w6, (a == ':') = false := by
    intro a ha
    rcases ws_toNat (hw6 a ha) with hlo | hhi <;>
      exact beq_false_of_toNat_ne (by omega)
  cases tagTok with
  | nil =>
    have ht : trimStart (w ++ ([] ++ (w6 ++ ':' :: post))) = ':' :: post := by
      rw [List.nil_append, trimStart_ws_append hw, trimStart_ws_append hw6]
      exact trimStart_cons (by decide)
    have hsplit : splitOnceP (fun a => a == ':') (':' :: post) = some ([], post) := by
      simp [splitOnceP]
    simp only [parse_tag, ht, hsplit]
    rfl
  | cons c cs =>
    have ht : trimStart (w ++ ((c :: cs) ++ (w6 ++ ':' :: post))) =
        (c :: cs) ++ (w6 ++ ':' :: post) := by
      rw [trimStart_ws_append hw]
      exact trimStart_cons (htag c (List.mem_cons_self _ _)).1
    have hassoc : ((c :: cs) ++ (w6 ++ ':' :: post) : List Char) =
        (((c :: cs) ++ w6) ++ ':' :: post) := by simp
    have hsplit : splitOnceP (fun a => a == ':') ((c :: cs) ++ (w6 ++ ':' :: post)) =
        some ((c :: cs) ++ w6, post) := by
      rw [hassoc]
      apply splitOnceP_append
      · intro a ha
        rcases List.mem_append.mp ha with h1 | h2
        · exact (htag a h1).2
        · exact hcolonws a h2
      · rfl
    have htrim : trimEnd ((c :: cs) ++ w6) = c :: cs := by
      rw [trimEnd_append_ws hw6, trimEnd_noWs (fun a ha => (htag a ha).1)]
    simp only [parse_tag, ht, hsplit, htrim]

lemma head_ne_dash {w0 mTok x y : List Char} {m : Nat} (hw0 : wsRun w0)
    (hm : parseU32 mTok = some m) : (w0 ++ ((mTok ++ x) ++ y)).head? ≠ some '-' := by
  have h45 : ('-' : Char).toNat = 45 := rfl
  cases w0 with
  | cons b bs =>
    intro hcontra
    simp only [List.cons_append, List.head?_cons, Option.some.injEq] at hcontra
    have hb := hw0 b (List.mem_cons_self _ _)
    rw [hcontra] at hb
    simp [rustIsWhitespace] at hb
  | nil =>
    obtain ⟨a, as, rfl⟩ : ∃ a as, mTok = a :: as := by
      cases hmt : mTok with
      | nil => rw [hmt] at hm; exact absurd hm (by simp [parseU32, parseNatDigits])
      | cons a b => exact ⟨a, b, rfl⟩
    intro hcontra
    simp only [List.nil_append, List.cons_append, List.head?_cons,
      Option.some.injEq] at hcontra
    rcases parseU32_chars hm a (List.mem_cons_self _ _) with h43 | ⟨h1, h2⟩ <;>
      rw [hcontra] at * <;> omega

/-- Main shape lemma: decoding a line made of well-formed tokens separated
by arbitrary (non-empty between fields) whitespace runs reaches the
timestamp assembly with exactly the token values, and from there succeeds
or panics according to chrono validity of the date and time. -/
theorem threadtime_render (y : Int) (lvl : Level) (post : List Char)
    {w0 w1 w2 w3 w4 w5 w6 : List Char}
    {mTok dTok hTok miTok sTok msTok pTok tdTok tagTok : List Char}
    {m d h mi s ms : Nat} {p t : Int}
    (hw0 : wsRun w0)
    (hm : parseU32 mTok = some m) (hd : parseU32 dTok = some d)
    (hw1 : wsRun w1) (hne1 : w1 ≠ [])
    (hh : parseU32 hTok = some h) (hmi : parseU32 miTok = some mi)
    (hs : parseU32 sTok = some s) (hms : parseU32 msTok = some ms)
    (hw2 : wsRun w2) (hne2 : w2 ≠ [])
    (hp : parseI32 pTok = some p)
    (hw3 : wsRun w3) (hne3 : w3 ≠ [])
    (ht : parseI32 tdTok = some t)
    (hw4 : wsRun w4) (hne4 : w4 ≠ [])
    (hw5 : wsRun w5) (hne5 : w5 ≠ [])
    (htag : ∀ c ∈ tagTok, rustIsWhitespace c = false ∧ (c == ':') = false)
    (hw6 : wsRun w6) :
    threadtime y (w0 ++ ((mTok ++ '-' :: dTok) ++ (w1 ++
      ((hTok ++ ':' :: (miTok ++ ':' :: (sTok ++ '.' :: msTok))) ++ (w2 ++
      (pTok ++ (w3 ++ (tdTok ++ (w4 ++ (Level.short lvl ++ (w5 ++
      (tagTok ++ (w6 ++ ':' :: post))))))))))))) =
      if fromYmdValid y m d then
        if hmsMilliValid h mi s ms then
          .ok ⟨lvl, tagTok, post.drop 1, some ⟨y, m, d, h, mi, s, ms⟩, some p, some t⟩
        else .panic timePanicMsg
      else .panic datePanicMsg := by
  simp only [threadtime, if_neg (head_ne_dash hw0 hm)]
  simp only [decodeStages,
    parse_date_render hw0 hm hd hw1 hne1,
    parse_time_render (wsRun_drop hw1 1) hh hmi hs hms hw2 hne2,
    parse_pid_render (wsRun_drop hw2 1) hp hw3 hne3,
    parse_tid_render (wsRun_drop hw3 1) ht hw4 hne4,
    parse_level_render (wsRun_drop hw4 1) hw5 hne5,
    parse_tag_render (wsRun_drop hw5 1) htag hw6]
  rfl

/-! ### The claims -/

/-- C1: for every well-formed line `mm-dd hh:mm:ss.mmm pid tid L tag: content`
with valid calendar values, threadtime decode succeeds and every field of the
resulting record equals the corresponding input token: numeric fields compared
as integers (the `parseU32`/`parseI32` hypotheses), level the image of the
code letter under the fixed table, tag the tag token, and content the text
after the tag delimiter and its one-character skip. -/
theorem threadtime_wellformed_ok (y : Int) (lvl : Level) (content : List Char)
    {mTok dTok hTok miTok sTok msTok pTok tdTok tagTok : List Char}
    {m d h mi s ms : Nat} {p t : Int}
    (hm : parseU32 mTok = some m) (hd : parseU32 dTok = some d)
    (hh : parseU32 hTok = some h) (hmi : parseU32 miTok = some mi)
    (hs : parseU32 sTok = some s) (hms : parseU32 msTok = some ms)
    (hp : parseI32 pTok = some p) (ht : parseI32 tdTok = some t)
    (htag : ∀ c ∈ tagTok, rustIsWhitespace c = false ∧ (c == ':') = false)
    (hvd : fromYmdValid y m d = true) (hvt : hmsMilliValid h mi s ms = true) :
    threadtime y ((mTok ++ '-' :: dTok) ++ ' ' ::
      ((hTok ++ ':' :: (miTok ++ ':' :: (sTok ++ '.' :: msTok))) ++ ' ' ::
      (pTok ++ ' ' :: (tdTok ++ ' ' :: (Level.short lvl ++ ' ' ::
      (tagTok ++ ':' :: ' ' :: content)))))) =
      .ok ⟨lvl, tagTok, content, some ⟨y, m, d, h, mi, s, ms⟩, some p, some t⟩ := by
  have hmain := threadtime_render y lvl (' ' :: content) wsRun_nil hm hd
    wsRun_space (by simp) hh hmi hs hms wsRun_space (by simp) hp
    wsRun_space (by simp) ht wsRun_space (by simp) wsRun_space (by simp)
    htag wsRun_nil
  rw [if_pos hvd, if_pos hvt] at hmain
  exact hmain

/-- Witness for C1 at a concrete well-formed line. -/
theorem threadtime_wellformed_ok_witness :
    threadtime 2024 "12-31 23:59:41.271 1 197 I init: Uptime".data =
      .ok ⟨.Info, "init".data, "Uptime".data,
        some ⟨2024, 12, 31, 23, 59, 41, 271⟩, some 1, some 197⟩ :=
  threadtime_wellformed_ok 2024 .Info "Uptime".data
    (show parseU32 "12".data = some 12 by decide)
    (show parseU32 "31".data = some 31 by decide)
    (show parseU32 "23".data = some 23 by decide)
    (show parseU32 "59".data = some 59 by decide)
    (show parseU32 "41".data = some 41 by decide)
    (show parseU32 "271".data = some 271 by decide)
    (show parseI32 "1".data = some 1 by decide)
    (show parseI32 "197".data = some 197 by decide)
    (show ∀ c ∈ "init".data, rustIsWhitespace c = false ∧ (c == ':') = false by decide)
    (show fromYmdValid 2024 12 31 = true by decide)
    (show hmsMilliValid 23 59 41 271 = true by decide)

/-- C2 counterexample: at the numerically well-formed but calendar-invalid
month 13, threadtime decode does not return an error value — it panics
(chrono `NaiveDate::from_ymd`), so the decode is not fully recoverable by
the caller as the claim states. -/
theorem threadtime_month13_panics_cex :
    threadtime 2024 "13-01 0:0:0.0 1 1 I tag: content".data = .panic datePanicMsg := by
  rfl

/-- C2 (amended): for every input line whose date and time tokens are
numerically well-formed but calendar-invalid, threadtime decode panics in
the timestamp assembly (chrono `from_ymd` / `and_hms_milli`) instead of
returning an invalid-timestamp error value. -/
theorem threadtime_invalid_calendar_panics (y : Int) (lvl : Level) (content : List Char)
    {mTok dTok hTok miTok sTok msTok pTok tdTok tagTok : List Char}
    {m d h mi s ms : Nat} {p t : Int}
    (hm : parseU32 mTok = some m) (hd : parseU32 dTok = some d)
    (hh : parseU32 hTok = some h) (hmi : parseU32 miTok = some mi)
    (hs : parseU32 sTok = some s) (hms : parseU32 msTok = some ms)
    (hp : parseI32 pTok = some p) (ht : parseI32 tdTok = some t)
    (htag : ∀ c ∈ tagTok, rustIsWhitespace c = false ∧ (c == ':') = false)
    (hinv : (fromYmdValid y m d && hmsMilliValid h mi s ms) = false) :
    threadtime y ((mTok ++ '-' :: dTok) ++ ' ' ::
      ((hTok ++ ':' :: (miTok ++ ':' :: (sTok ++ '.' :: msTok))) ++ ' ' ::
      (pTok ++ ' ' :: (tdTok ++ ' ' :: (Level.short lvl ++ ' ' ::
      (tagTok ++ ':' :: ' ' :: content)))))) =
      .panic (if fromYmdValid y m d then timePanicMsg else datePanicMsg) := by
  have hmain := threadtime_render y lvl (' ' :: content) wsRun_nil hm hd
    wsRun_space (by simp) hh hmi hs hms wsRun_space (by simp) hp
    wsRun_space (by simp) ht wsRun_space (by simp) wsRun_space (by simp)
    htag wsRun_nil
  cases hvd : fromYmdValid y m d with
  | false =>
    simp only [hvd, Bool.false_eq_true, if_false] at hmain ⊢
    exact hmain
  | true =>
    have hvt : hmsMilliValid h mi s ms = false := by
      rw [hvd] at hinv
      simpa using hinv
    simp only [hvd, if_true, hvt, Bool.false_eq_true, if_false] at hmain ⊢
    exact hmain

/-- Witness for the amended C2 at month 13. -/
theorem threadtime_invalid_calendar_panics_witness :
    threadtime 2024 "13-01 0:0:0.0 1 1 W tag: c".data = .panic datePanicMsg := by
  have hmain := threadtime_invalid_calendar_panics 2024 .Warning "c".data
    (show parseU32 "13".data = some 13 by decide)
    (show parseU32 "01".data = some 1 by decide)
    (show parseU32 "0".data = some 0 by decide)
    (show parseU32 "0".data = some 0 by decide)
    (show parseU32 "0".data = some 0 by decide)
    (show parseU32 "0".data = some 0 by decide)
    (show parseI32 "1".data = some 1 by decide)
    (show parseI32 "1".data = some 1 by decide)
    (show ∀ c ∈ "tag".data, rustIsWhitespace c = false ∧ (c == ':') = false by decide)
    (show (fromYmdValid 2024 13 1 && hmsMilliValid 0 0 0 0) = false by decide)
  simp only [show fromYmdValid 2024 13 1 = false from by decide,
    Bool.false_eq_true, if_false] at hmain
  exact hmain

/-- C3 counterexample: the input `"-31 0:0:0.0 1 1 I tag: content"` fails,
but with the banner fast-path diagnostic (`malformed line`), not the
date-stage malformed `mm-dd` diagnostic the claim states. -/
theorem threadtime_dash31_banner_cex :
    threadtime 2024 "-31 0:0:0.0 1 1 I tag: content".data = .err .malformedLine ∧
    DecodeError.malformedLine ≠ DecodeError.invalidDate "-31".data :=
  ⟨rfl, by decide⟩

/-- C3 (amended): the input `"-31 0:0:0.0 1 1 I tag: content"` fails
immediately at the banner fast-path with the `malformed line` diagnostic,
before the date stage runs, because its first character is `-`. -/
theorem threadtime_dash31_rejected_as_banner (y : Int) :
    threadtime y "-31 0:0:0.0 1 1 I tag: content".data = .err .malformedLine := rfl

/-- C4: in the tag stage, whenever the (trim-started) remainder contains a
`:`, the tag is the text before the first `:` with trailing whitespace
trimmed and the remainder is advanced past exactly one leading character;
and an empty remainder after `:` is not an error — the line
`"12-31 0:0:0.0 1 1 I tag:"` decodes successfully with empty content. -/
theorem parse_tag_spec :
    (∀ (st : PartialMessage) (rest pre post : List Char),
      splitOnceP (fun c => c == ':') (trimStart rest) = some (pre, post) →
      parse_tag st rest = .ok ({ st with tag := trimEnd pre }, post.drop 1)) ∧
    (∀ y : Int, threadtime y "12-31 0:0:0.0 1 1 I tag:".data =
      .ok ⟨.Info, "tag".data, [], some ⟨y, 12, 31, 0, 0, 0, 0⟩, some 1, some 1⟩) := by
  constructor
  · intro st rest pre post hsp
    simp only [parse_tag, hsp]
  · intro y
    rfl

/-- Witness for C4: the universal part applied at a concrete remainder
(note the trailing-trim of the tag and the one-character skip eating the
`x` that follows `:` without a space). -/
theorem parse_tag_spec_witness :
    parse_tag PartialMessage.default "tag :xy".data =
      .ok ({ PartialMessage.default with tag := "tag".data }, "y".data) :=
  parse_tag_spec.1 PartialMessage.default "tag :xy".data "tag ".data "xy".data (by decide)

/-- C5: every input line whose first character is `-` is rejected with the
banner diagnostic regardless of what follows, before any field decoding. -/
theorem threadtime_dash_rejected (y : Int) (s : List Char) :
    threadtime y ('-' :: s) = .err .malformedLine := rfl

/-- C6 counterexample: `build` on a fully-set builder succeeds but does NOT
consume the accumulated state — the builder (modelled with the state
`build(&self)` leaves behind) is unchanged, still fully populated, and a
second `build` succeeds with the same record, so the builder is not
single-use. -/
theorem build_does_not_consume_cex :
    ((((MessageBuilder.new.setLevel .Verbose).setTag "tag".data).setContent
        "content".data).build).1 =
      ((MessageBuilder.new.setLevel .Verbose).setTag "tag".data).setContent
        "content".data ∧
    ((((MessageBuilder.new.setLevel .Verbose).setTag "tag".data).setContent
        "content".data).build).2 =
      .ok ⟨.Verbose, "tag".data, "content".data, none, none, none⟩ ∧
    (((((MessageBuilder.new.setLevel .Verbose).setTag "tag".data).setContent
        "content".data).build).1.build).2 =
      .ok ⟨.Verbose, "tag".data, "content".data, none, none, none⟩ :=
  ⟨rfl, rfl, rfl⟩

/-- C6 (amended): finalization validates presence of the three mandatory
fields in the order level, tag, content, failing with an error naming the
first absent one; with all three set it succeeds and yields one record
carrying the accumulated slots; `build` borrows the accumulated state and
leaves it intact (the builder is reusable, not single-use). -/
theorem build_validates_mandatory (b : MessageBuilder) :
    ((MessageBuilder.build b).1 = b) ∧
    (b.level = none → (MessageBuilder.build b).2 = .error (.fieldNotSet "level".data)) ∧
    (∀ lv, b.level = some lv → b.tag = none →
      (MessageBuilder.build b).2 = .error (.fieldNotSet "tag".data)) ∧
    (∀ lv tg, b.level = some lv → b.tag = some tg → b.content = none →
      (MessageBuilder.build b).2 = .error (.fieldNotSet "content".data)) ∧
    (∀ lv tg ct, b.level = some lv → b.tag = some tg → b.content = some ct →
      (MessageBuilder.build b).2 = .ok ⟨lv, tg, ct, b.date_time, b.pid, b.tid⟩) := by
  obtain ⟨l0, t0, c0, dt, pi, ti⟩ := b
  cases l0 <;> cases t0 <;> cases c0 <;>
    simp [MessageBuilder.build]

/-- Witness for the amended C6 on a fully-set builder. -/
theorem build_validates_mandatory_witness :
    ((((MessageBuilder.new.setLevel .Debug).setTag "t".data).setContent
        "c".data).build).2 =
      .ok ⟨.Debug, "t".data, "c".data, none, none, none⟩ :=
  (build_validates_mandatory
      (((MessageBuilder.new.setLevel .Debug).setTag "t".data).setContent
        "c".data)).2.2.2.2 .Debug "t".data "c".data rfl rfl rfl

/-- C7: the mandatory fields are always present by construction (they are
non-optional fields of `Message`); the three optional fields are all
present on every record produced by threadtime decode, and all absent on a
record built with only the mandatory fields set. -/
theorem record_optional_fields_all_or_none :
    (∀ (y : Int) (line : List Char) (msg : Message), threadtime y line = .ok msg →
      msg.date_time.isSome = true ∧ msg.pid.isSome = true ∧ msg.tid.isSome = true) ∧
    (∀ (lv : Level) (tg ct : List Char),
      ((((MessageBuilder.new.setLevel lv).setTag tg).setContent ct).build).2 =
        .ok ⟨lv, tg, ct, none, none, none⟩) := by
  constructor
  · intro y line msg hok
    unfold threadtime at hok
    by_cases hdash : line.head? = some '-'
    · rw [if_pos hdash] at hok
      cases hok
    · rw [if_neg hdash] at hok
      cases hds : decodeStages PartialMessage.default line with
      | error e => rw [hds] at hok; cases hok
      | ok pr =>
        obtain ⟨st, r⟩ := pr
        rw [hds] at hok
        have hok2 : parse_content y st r = .ok msg := hok
        unfold parse_content at hok2
        cases hvd : fromYmdValid y st.month st.day with
        | false =>
          rw [hvd] at hok2
          exact DResult.noConfusion (show DResult.panic datePanicMsg = DResult.ok msg from hok2)
        | true =>
          rw [hvd] at hok2
          cases hvt : hmsMilliValid st.hour st.minute st.second st.millisecond with
          | false =>
            rw [hvt] at hok2
            exact DResult.noConfusion (show DResult.panic timePanicMsg = DResult.ok msg from hok2)
          | true =>
            rw [hvt] at hok2
            have hok3 : DResult.ok ⟨st.level, st.tag, r,
                some ⟨y, st.month, st.day, st.hour, st.minute, st.second, st.millisecond⟩,
                some st.pid, some st.tid⟩ = .ok msg := hok2
            injection hok3 with h3
            rw [← h3]
            exact ⟨rfl, rfl, rfl⟩
  · intro lv tg ct
    rfl

/-- Witness for C7 on a concrete decoded line. -/
theorem record_optional_fields_all_or_none_witness :
    (⟨.Info, "tag".data, "content".data, some ⟨2024, 12, 31, 0, 0, 0, 0⟩,
        some 1, some 1⟩ : Message).date_time.isSome = true ∧
    (⟨.Info, "tag".data, "content".data, some ⟨2024, 12, 31, 0, 0, 0, 0⟩,
        some 1, some 1⟩ : Message).pid.isSome = true ∧
    (⟨.Info, "tag".data, "content".data, some ⟨2024, 12, 31, 0, 0, 0, 0⟩,
        some 1, some 1⟩ : Message).tid.isSome = true :=
  record_optional_fields_all_or_none.1 2024 "12-31 0:0:0.0 1 1 I tag: content".data
    ⟨.Info, "tag".data, "content".data, some ⟨2024, 12, 31, 0, 0, 0, 0⟩,
      some 1, some 1⟩ (by decide)

/-- C8: the four severity threshold predicates are monotone and mutually
consistent over the fixed order Verbose < Debug < Info < Warning < Error <
Fatal, and each holds exactly on the levels at or above its threshold. -/
theorem level_predicates_monotone :
    ∀ x : Level,
      (x.is_error_or_higher = true → x.is_warning_or_higher = true) ∧
      (x.is_warning_or_higher = true → x.is_info_or_higher = true) ∧
      (x.is_info_or_higher = true → x.is_debug_or_higher = true) ∧
      (x.is_debug_or_higher = true ↔ 1 ≤ x.rank) ∧
      (x.is_info_or_higher = true ↔ 2 ≤ x.rank) ∧
      (x.is_warning_or_higher = true ↔ 3 ≤ x.rank) ∧
      (x.is_error_or_higher = true ↔ 4 ≤ x.rank) := by
  intro x
  cases x <;> decide

/-- Witness for C8 at `Error`. -/
theorem level_predicates_monotone_witness :
    Level.is_warning_or_higher .Error = true :=
  (level_predicates_monotone .Error).1 (by decide)

/-- C9: widening the runs of inter-field whitespace (at least one
whitespace character between fields) does not change the decode result at
all — in particular every parsed field value is unchanged. -/
theorem threadtime_whitespace_insensitive (y : Int) (lvl : Level) (post : List Char)
    {w0 w1 w2 w3 w4 w5 w6 v0 v1 v2 v3 v4 v5 v6 : List Char}
    {mTok dTok hTok miTok sTok msTok pTok tdTok tagTok : List Char}
    {m d h mi s ms : Nat} {p t : Int}
    (hm : parseU32 mTok = some m) (hd : parseU32 dTok = some d)
    (hh : parseU32 hTok = some h) (hmi : parseU32 miTok = some mi)
    (hs : parseU32 sTok = some s) (hms : parseU32 msTok = some ms)
    (hp : parseI32 pTok = some p) (ht : parseI32 tdTok = some t)
    (htag : ∀ c ∈ tagTok, rustIsWhitespace c = false ∧ (c == ':') = false)
    (hw0 : wsRun w0) (hw1 : wsRun w1) (hne1 : w1 ≠ []) (hw2 : wsRun w2) (hne2 : w2 ≠ [])
    (hw3 : wsRun w3) (hne3 : w3 ≠ []) (hw4 : wsRun w4) (hne4 : w4 ≠ [])
    (hw5 : wsRun w5) (hne5 : w5 ≠ []) (hw6 : wsRun w6)
    (hv0 : wsRun v0) (hv1 : wsRun v1) (hme1 : v1 ≠ []) (hv2 : wsRun v2) (hme2 : v2 ≠ [])
    (hv3 : wsRun v3) (hme3 : v3 ≠ []) (hv4 : wsRun v4) (hme4 : v4 ≠ [])
    (hv5 : wsRun v5) (hme5 : v5 ≠ []) (hv6 : wsRun v6) :
    threadtime y (w0 ++ ((mTok ++ '-' :: dTok) ++ (w1 ++
      ((hTok ++ ':' :: (miTok ++ ':' :: (sTok ++ '.' :: msTok))) ++ (w2 ++
      (pTok ++ (w3 ++ (tdTok ++ (w4 ++ (Level.short lvl ++ (w5 ++
      (tagTok ++ (w6 ++ ':' :: post))))))))))))) =
    threadtime y (v0 ++ ((mTok ++ '-' :: dTok) ++ (v1 ++
      ((hTok ++ ':' :: (miTok ++ ':' :: (sTok ++ '.' :: msTok))) ++ (v2 ++
      (pTok ++ (v3 ++ (tdTok ++ (v4 ++ (Level.short lvl ++ (v5 ++
      (tagTok ++ (v6 ++ ':' :: post))))))))))))) := by
  rw [threadtime_render y lvl post hw0 hm hd hw1 hne1 hh hmi hs hms hw2 hne2 hp
      hw3 hne3 ht hw4 hne4 hw5 hne5 htag hw6,
    threadtime_render y lvl post hv0 hm hd hv1 hme1 hh hmi hs hms hv2 hme2 hp
      hv3 hme3 ht hv4 hme4 hv5 hme5 htag hv6]

/-- Witness for C9: the specification's example pair of wide and narrow
whitespace lines decodes identically. -/
theorem threadtime_whitespace_insensitive_witness :
    threadtime 2024 "12-31  0:0:0.0   1  1  I  tag : content".data =
      threadtime 2024 "12-31 0:0:0.0 1 1 I tag : content".data :=
  threadtime_whitespace_insensitive 2024 .Info (' ' :: "content".data)
    (show parseU32 "12".data = some 12 by decide)
    (show parseU32 "31".data = some 31 by decide)
    (show parseU32 "0".data = some 0 by decide)
    (show parseU32 "0".data = some 0 by decide)
    (show parseU32 "0".data = some 0 by decide)
    (show parseU32 "0".data = some 0 by decide)
    (show parseI32 "1".data = some 1 by decide)
    (show parseI32 "1".data = some 1 by decide)
    (show ∀ c ∈ "tag".data, rustIsWhitespace c = false ∧ (c == ':') = false by decide)
    (show wsRun [] by decide) (show wsRun "  ".data by decide) (by decide)
    (show wsRun "   ".data by decide) (by decide)
    (show wsRun "  ".data by decide) (by decide)
    (show wsRun "  ".data by decide) (by decide)
    (show wsRun "  ".data by decide) (by decide)
    (show wsRun " ".data by decide)
    (show wsRun [] by decide) (show wsRun " ".data by decide) (by decide)
    (show wsRun " ".data by decide) (by decide)
    (show wsRun " ".data by decide) (by decide)
    (show wsRun " ".data by decide) (by decide)
    (show wsRun " ".data by decide) (by decide)
    (show wsRun " ".data by decide)

/-- C10: the empty-level-token arm of `parse_level` (the `None` arm of
`chars().next()`) is unreachable: every failure of the level stage is
either a missing whitespace boundary after the token or a first character
outside the `V/D/I/W/E/F` table. -/
theorem parse_level_empty_token_unreachable :
    ∀ (st : PartialMessage) (rest : List Char) (e : DecodeError),
      parse_level st rest = .error e →
      e.isEmptyLevel = false ∧
      (e = .noGroupsAfterLevel ∨ ∃ c, e = .invalidLevel c ∧ levelOfChar c = none) := by
  intro st rest e hpl
  unfold parse_level at hpl
  cases hsp : splitOnceP rustIsWhitespace (trimStart rest) with
  | none =>
    rw [hsp] at hpl
    cases hpl
    exact ⟨rfl, Or.inl rfl⟩
  | some pr =>
    obtain ⟨tok, r⟩ := pr
    rw [hsp] at hpl
    cases tok with
    | nil =>
      obtain ⟨c, cs, hl, hc⟩ := splitOnceP_nil_pre hsp
      rw [trimStart_head hl] at hc
      cases hc
    | cons c cs =>
      simp only [List.head?_cons] at hpl
      cases hlc : levelOfChar c with
      | some lv =>
        simp only [hlc] at hpl
        exact Except.noConfusion hpl
      | none =>
        simp only [hlc] at hpl
        cases hpl
        exact ⟨rfl, Or.inr ⟨c, rfl, hlc⟩⟩

/-- Witness for C10 at a level token with a bad first character. -/
theorem parse_level_empty_token_unreachable_witness :
    (DecodeError.invalidLevel 'X').isEmptyLevel = false ∧
    (DecodeError.invalidLevel 'X' = .noGroupsAfterLevel ∨
      ∃ c, DecodeError.invalidLevel 'X' = .invalidLevel c ∧ levelOfChar c = none) :=
  parse_level_empty_token_unreachable PartialMessage.default "X tag: c".data
    (.invalidLevel 'X') (by decide)

end Logcat
